import Mathlib

/-! # 3D phone viewer: display state machine of `src/main.js`

A shallow embedding of the class `PhoneViewer` of `src/main.js`: the model registry
(`phoneModels`, a JavaScript array with holes), the current index, the navigation items,
the info panel, the camera distance and the queue of per-frame callbacks registered with
`requestAnimationFrame`.

Numbers are rationals: every constant of the source (`0.01`, `0.3`, `0.5`, `2`, `5`, `8`)
is read as the exact decimal it denotes.

What belongs to the three.js library is not embedded: rendering, `adjustModel` (scale and
position of a scene, which no operation below reads), and `controls.update()`.
`controls.reset()` is embedded as restoring the camera position saved by the `OrbitControls`
constructor (`position0`). The page is taken to hold the elements `phone-nav` and
`info-container`.

The browser is embedded as far as the code relies on it: callbacks registered with
`requestAnimationFrame` run once, in registration order, in the next frame
(`PhoneViewer.frame`), and the callbacks of `loader.load` and of the navigation items arrive
as events in any order (`Event`, `runEvents`).
-/

namespace PhoneShow

/-! ## Data model -/

/-- One record of the catalog returned by `/api/phones`. -/
structure PhoneRecord where
  id : Nat := 0
  name : String := ""
  screen : String := ""
  processor : String := ""
  camera : String := ""
  battery : String := ""
  storage : String := ""
  model_path : Option String := none
  deriving DecidableEq, Repr

/-- The fields `x`, `y`, `z` of `scene.rotation`. -/
structure Euler where
  x : ℚ
  y : ℚ
  z : ℚ
  deriving DecidableEq, Repr

/-- The part of a three.js scene object that `main.js` reads or writes. -/
structure Scene where
  visible : Bool
  rotation : Euler
  deriving DecidableEq, Repr

/-- The object `{ scene, info }` stored in `phoneModels[index]` (lines 368-371). -/
structure ModelEntry where
  scene : Scene
  info : PhoneRecord
  deriving DecidableEq, Repr

/-- A `div.nav-item` of `phoneNav`: its text and whether its class list holds `active`. -/
structure NavItem where
  textContent : String
  active : Bool
  deriving DecidableEq, Repr

/-- The argument of `rotateModel`: the string `left` or `right`. -/
inductive Direction where
  | left
  | right
  deriving DecidableEq, Repr

/-- The argument of `zoomCamera`: the string `in` or `out`. -/
inductive ZoomDirection where
  | zoomIn
  | zoomOut
  deriving DecidableEq, Repr

/-- The closure `animateRotation` created by one `rotateModel` call (lines 222-237): the
scene it captured as `currentModel`, identified by its registry slot, the captured
`direction` and the captured `targetRotation`. -/
structure RotationRun where
  model : Int
  direction : Direction
  targetRotation : ℚ
  deriving DecidableEq, Repr

/-- A callback registered with `requestAnimationFrame`: the render loop `animate` or the
closure `animateRotation` of a rotation run. -/
inductive FrameCallback where
  | animate
  | animateRotation (run : RotationRun)
  deriving DecidableEq, Repr

/-- A JavaScript exception raised by the embedded code. -/
inductive JsError where
  | typeError
  deriving DecidableEq, Repr

/-- The mutable state of a `PhoneViewer` instance. `phoneModels` is the JavaScript array:
`none` is a hole (an index never assigned). `cameraZ` is `camera.position.z`,
`minDistance` and `maxDistance` are the fields of `controls`, `position0` the camera
position saved by `controls`, `infoPanel` the record rendered in `infoContainer`, and
`frameCallbacks` the callbacks waiting for the next animation frame, in registration
order. -/
structure PhoneViewer where
  phoneModels : List (Option ModelEntry)
  currentModelIndex : Int
  isAutoRotating : Bool
  navItems : List NavItem
  infoPanel : Option PhoneRecord
  cameraZ : ℚ
  minDistance : ℚ
  maxDistance : ℚ
  position0 : ℚ
  frameCallbacks : List FrameCallback
  deriving DecidableEq, Repr

/-- The result of a method that may throw: the state when it returned or threw, and the
exception if it threw. -/
structure Outcome where
  state : PhoneViewer
  error : Option JsError
  deriving DecidableEq, Repr

/-! ## The registry as a JavaScript array -/

/-- The read `phoneModels[i]`: `none` stands for `undefined` (a hole, or an index outside
the array). -/
def getSlot (models : List (Option ModelEntry)) (i : Int) : Option ModelEntry :=
  if 0 ≤ i then
    match models[i.toNat]? with
    | some (some e) => some e
    | _ => none
  else none

/-- The write `phoneModels[index] = entry`: inside the array it replaces the slot, beyond
its end it extends the array with holes up to `index`. -/
def setSlot (models : List (Option ModelEntry)) (index : Nat) (entry : ModelEntry) :
    List (Option ModelEntry) :=
  if index < models.length then models.set index (some entry)
  else models ++ List.replicate (index - models.length) none ++ [some entry]

/-- The truthiness test `phone.model_path` of line 348: a missing or empty path is falsy. -/
def hasModelPath (phone : PhoneRecord) : Bool :=
  match phone.model_path with
  | some p => p != ""
  | none => false

/-! ## Construction and loading -/

/-- The state after `constructor` and `init` (lines 15-17, 81, 99-100, 115): no model, index
0, camera at distance 5 within `[2, 8]`, the render loop scheduled. -/
def initialViewer : PhoneViewer :=
  { phoneModels := []
    currentModelIndex := 0
    isAutoRotating := false
    navItems := []
    infoPanel := none
    cameraZ := 5
    minDistance := 2
    maxDistance := 8
    position0 := 5
    frameCallbacks := [FrameCallback.animate] }

/-- The loop of `createPhoneNavigation` (lines 311-322) from position `i` on: one item per
record, the one at position 0 active. -/
def navItemsFrom : Nat → List PhoneRecord → List NavItem
  | _, [] => []
  | i, phone :: rest =>
      { textContent := phone.name, active := decide (i = 0) } :: navItemsFrom (i + 1) rest

/-- The method `createPhoneNavigation` (lines 306-323). -/
def PhoneViewer.createPhoneNavigation (s : PhoneViewer) (phonesData : List PhoneRecord) :
    PhoneViewer :=
  { s with navItems := navItemsFrom 0 phonesData }

/-- The synchronous head of `loadModels` (lines 330-343): an empty catalog returns at once,
otherwise the registry is cleared before the loads start. -/
def PhoneViewer.loadModelsStart (s : PhoneViewer) (phonesData : List PhoneRecord) :
    PhoneViewer :=
  if phonesData.length = 0 then s else { s with phoneModels := [] }

/-- The success callback of `loader.load` for catalog position `index` (lines 358-375). -/
def PhoneViewer.onModelLoaded (s : PhoneViewer) (index : Nat) (phone : PhoneRecord)
    (gltfScene : Scene) : PhoneViewer :=
  let scene : Scene := { gltfScene with visible := decide (index = 0) }
  { s with phoneModels := setSlot s.phoneModels index { scene := scene, info := phone } }

/-- The method `updatePhoneInfo` (lines 457-505). -/
def PhoneViewer.updatePhoneInfo (s : PhoneViewer) (index : Int) : PhoneViewer :=
  if index < 0 ∨ index ≥ s.phoneModels.length then s
  else
    match getSlot s.phoneModels index with
    | none => s
    | some e => { s with infoPanel := some e.info }

/-! ## Switching -/

/-- The loop of lines 424-430 from position `i` on: item `i` gets `active` exactly when
`i === index`. -/
def markActive (index : Int) : Nat → List NavItem → List NavItem
  | _, [] => []
  | i, item :: rest =>
      { item with active := decide ((i : Int) = index) } :: markActive index (i + 1) rest

/-- The call `controls.reset()` of line 450. -/
def PhoneViewer.controlsReset (s : PhoneViewer) : PhoneViewer :=
  { s with cameraZ := s.position0 }

/-- The method `switchModel` (lines 419-451). -/
def PhoneViewer.switchModel (s : PhoneViewer) (index : Int) : PhoneViewer :=
  if index < 0 ∨ index ≥ s.phoneModels.length then s
  else
    let s1 : PhoneViewer := { s with navItems := markActive index 0 s.navItems }
    let s2 : PhoneViewer :=
      match getSlot s1.phoneModels s1.currentModelIndex with
      | some e =>
          { s1 with
            phoneModels := s1.phoneModels.set s1.currentModelIndex.toNat
              (some { e with scene := { e.scene with visible := false } }) }
      | none => s1
    let s3 : PhoneViewer := { s2 with currentModelIndex := index }
    let s4 : PhoneViewer :=
      match getSlot s3.phoneModels index with
      | some e =>
          { s3 with
            phoneModels := s3.phoneModels.set index.toNat
              (some { e with scene := { visible := true, rotation := ⟨0, 0, 0⟩ } }) }
      | none => s3
    (s4.updatePhoneInfo index).controlsReset

/-! ## Zoom -/

/-- The method `zoomCamera` (lines 246-254). -/
def PhoneViewer.zoomCamera (s : PhoneViewer) (direction : ZoomDirection) : PhoneViewer :=
  if direction = ZoomDirection.zoomIn ∧ s.cameraZ > s.minDistance then
    { s with cameraZ := s.cameraZ - 1 / 2 }
  else if direction = ZoomDirection.zoomOut ∧ s.cameraZ < s.maxDistance then
    { s with cameraZ := s.cameraZ + 1 / 2 }
  else s

/-! ## Auto-rotation, rotation runs and animation frames -/

/-- The method `toggleAutoRotation` (lines 259-270). -/
def PhoneViewer.toggleAutoRotation (s : PhoneViewer) : PhoneViewer :=
  { s with isAutoRotating := !s.isAutoRotating }

/-- The browser call `requestAnimationFrame(cb)`: `cb` joins the callbacks of the next
frame, after those already registered. -/
def PhoneViewer.requestAnimationFrame (s : PhoneViewer) (cb : FrameCallback) : PhoneViewer :=
  { s with frameCallbacks := s.frameCallbacks ++ [cb] }

/-- The yaw update of `animateRotation` (lines 229-236) on `currentModel.rotation.y`. -/
def stepYaw (run : RotationRun) (y : ℚ) : ℚ :=
  if run.direction = Direction.left ∧ y < run.targetRotation then
    min (y + 1 / 100) run.targetRotation
  else if run.direction = Direction.right ∧ y > run.targetRotation then
    max (y - 1 / 100) run.targetRotation
  else y

/-- Writes `f y` to the yaw of the scene in slot `i`; a slot without a scene is left as
it is. -/
def mapYaw (models : List (Option ModelEntry)) (i : Int) (f : ℚ → ℚ) :
    List (Option ModelEntry) :=
  match getSlot models i with
  | some e =>
      models.set i.toNat
        (some { e with
          scene := { e.scene with rotation := { e.scene.rotation with y := f e.scene.rotation.y } } })
  | none => models

/-- One execution of the closure `animateRotation` (lines 227-237): it registers itself for
the next frame first (line 228), then updates the yaw of the captured scene. -/
def PhoneViewer.animateRotation (s : PhoneViewer) (run : RotationRun) : PhoneViewer :=
  let s1 := s.requestAnimationFrame (FrameCallback.animateRotation run)
  { s1 with phoneModels := mapYaw s1.phoneModels run.model (stepYaw run) }

/-- The method `rotateModel` (lines 219-240). Reading `.scene` of an absent slot (line 222)
throws a `TypeError`. -/
def PhoneViewer.rotateModel (s : PhoneViewer) (direction : Direction) : Outcome :=
  if s.phoneModels.length = 0 then { state := s, error := none }
  else
    match getSlot s.phoneModels s.currentModelIndex with
    | none => { state := s, error := some JsError.typeError }
    | some e =>
        let targetRotation : ℚ :=
          if direction = Direction.left then e.scene.rotation.y + 3 / 10
          else e.scene.rotation.y - 3 / 10
        { state := s.animateRotation
            { model := s.currentModelIndex, direction := direction,
              targetRotation := targetRotation },
          error := none }

/-- The method `animate` (lines 521-534), without the library calls of lines 532-533.
Reading `.scene` of an absent slot (line 526) throws a `TypeError`, after the loop has
registered itself for the next frame (line 522). -/
def PhoneViewer.animate (s : PhoneViewer) : Outcome :=
  let s1 := s.requestAnimationFrame FrameCallback.animate
  if s1.isAutoRotating = true ∧ s1.phoneModels.length > 0 then
    match getSlot s1.phoneModels s1.currentModelIndex with
    | none => { state := s1, error := some JsError.typeError }
    | some _ =>
        { state :=
            { s1 with
              phoneModels := mapYaw s1.phoneModels s1.currentModelIndex (fun y => y + 1 / 100) },
          error := none }
  else { state := s1, error := none }

/-- Runs one frame callback. An exception thrown by a callback is reported by the browser
and does not stop the callbacks after it. -/
def PhoneViewer.runCallback (s : PhoneViewer) : FrameCallback → PhoneViewer
  | FrameCallback.animate => s.animate.state
  | FrameCallback.animateRotation run => s.animateRotation run

/-- One animation frame of the browser: the callbacks registered so far run once each, in
registration order; what they register runs in the next frame. -/
def PhoneViewer.frame (s : PhoneViewer) : PhoneViewer :=
  s.frameCallbacks.foldl PhoneViewer.runCallback { s with frameCallbacks := [] }

/-- The state after `n` animation frames. -/
def PhoneViewer.frames (s : PhoneViewer) : Nat → PhoneViewer
  | 0 => s
  | n + 1 => (s.frames n).frame

/-- The yaw of the scene in slot `i`, if the slot holds one. -/
def yawAt (s : PhoneViewer) (i : Int) : Option ℚ :=
  (getSlot s.phoneModels i).map (fun e => e.scene.rotation.y)

/-! ## Events of a session -/

/-- What happens to a viewer after `fetchPhoneData` has built the navigation and started
the loads: a model load succeeds or fails, `loadModels` returns to `fetchPhoneData`
(line 294), or a navigation item is clicked (line 320). -/
inductive Event where
  | loadCompleted (index : Nat) (gltfScene : Scene)
  | loadFailed (index : Nat)
  | loadModelsReturned
  | switchModel (index : Int)
  deriving DecidableEq, Repr

/-- The state in which the loads of `catalog` are started: `createPhoneNavigation`, then the
head of `loadModels` (lines 288-291). -/
def startViewer (catalog : List PhoneRecord) : PhoneViewer :=
  (initialViewer.createPhoneNavigation catalog).loadModelsStart catalog

/-- The effect of one event. A load is started only for a catalog position with a model
path (lines 348-352); a failed load only logs and rejects (lines 380-383). -/
def applyEvent (catalog : List PhoneRecord) (s : PhoneViewer) : Event → PhoneViewer
  | Event.loadCompleted index gltfScene =>
      match catalog[index]? with
      | some phone => if hasModelPath phone then s.onModelLoaded index phone gltfScene else s
      | none => s
  | Event.loadFailed _ => s
  | Event.loadModelsReturned => s.updatePhoneInfo 0
  | Event.switchModel index => s.switchModel index

/-- The state after a sequence of events, from the start of the loads of `catalog`. -/
def runEvents (catalog : List PhoneRecord) (events : List Event) : PhoneViewer :=
  events.foldl (applyEvent catalog) (startViewer catalog)

/-! ## Observations of a state -/

/-- The positions of the registry whose scene is visible. -/
def visibleIndices (models : List (Option ModelEntry)) : List Nat :=
  (List.range models.length).filter
    (fun i => match getSlot models i with
      | some e => e.scene.visible
      | none => false)

/-- Whether some slot of the registry holds a loaded entry. -/
def hasRegistered (models : List (Option ModelEntry)) : Bool :=
  models.any Option.isSome

/-! ## Sample sessions and invariants -/

/-- A catalog of two phones, both with a model path. -/
def catalogAB : List PhoneRecord :=
  [{ id := 1, name := "A", model_path := some "/a.glb" },
   { id := 2, name := "B", model_path := some "/b.glb" }]

/-- A freshly loaded scene with yaw `y`. -/
def sceneWithYaw (y : ℚ) : Scene :=
  { visible := true, rotation := ⟨0, y, 0⟩ }

/-- A catalog of three phones, each with a model path. -/
def catalogABC : List PhoneRecord :=
  catalogAB ++ [{ id := 3, name := "C", model_path := some "/c.glb" }]

/-- The viewer of `catalogABC` after the models of positions 0 and 2 have loaded and the
load of position 1 has failed: slot 1 of the registry is a hole inside its range. -/
def viewerWithHole : PhoneViewer :=
  runEvents catalogABC
    [Event.loadCompleted 0 (sceneWithYaw 0), Event.loadFailed 1,
     Event.loadCompleted 2 (sceneWithYaw 0)]

/-- The viewer of `catalogAB` after the load of position 0 has failed and the model of
position 1 has loaded. -/
def viewerFirstFailed : PhoneViewer :=
  runEvents catalogAB [Event.loadFailed 0, Event.loadCompleted 1 (sceneWithYaw 0)]

/-- The viewer of `catalogAB` when the model of position 1 loads first, the user selects it,
and the model of position 0 loads afterwards. -/
def viewerLateFirst : PhoneViewer :=
  runEvents catalogAB
    [Event.loadCompleted 1 (sceneWithYaw 0), Event.switchModel 1,
     Event.loadCompleted 0 (sceneWithYaw 0)]

/-- The initial viewer with its camera moved to distance `d`. -/
def viewerAtDistance (d : ℚ) : PhoneViewer :=
  { initialViewer with cameraZ := d }

/-- The invariant of `currentModelIndex` along a session: it is not negative, and it is 0
or inside the registry's range. -/
def indexInv (s : PhoneViewer) : Prop :=
  0 ≤ s.currentModelIndex ∧
    (s.currentModelIndex = 0 ∨ s.currentModelIndex < s.phoneModels.length)

/-- The invariant of the camera along zoom calls from the initial viewer: the bounds are
2 and 8 and the distance is `k / 2` for a natural `k` between 4 and 16. -/
def zoomInv (s : PhoneViewer) : Prop :=
  s.minDistance = 2 ∧ s.maxDistance = 8 ∧
    ∃ k : Nat, 4 ≤ k ∧ k ≤ 16 ∧ s.cameraZ = (k : ℚ) / 2

/-- The viewer of `catalogAB` after both models have loaded. -/
def viewerBothLoaded : PhoneViewer :=
  runEvents catalogAB
    [Event.loadCompleted 0 (sceneWithYaw 0), Event.loadCompleted 1 (sceneWithYaw 0)]

/-- No rotation run waiting in `cbs` captured the scene of slot `m`. -/
def noRunOn (m : Int) (cbs : List FrameCallback) : Prop :=
  ∀ run : RotationRun, FrameCallback.animateRotation run ∈ cbs → run.model ≠ m

/-- The yaw of slot `m` in the registry `models`. -/
def yawOf (models : List (Option ModelEntry)) (m : Int) : Option ℚ :=
  (getSlot models m).map (fun e => e.scene.rotation.y)

/-- The viewer of `catalogAB` after the model of position 0 has loaded with yaw 0. -/
def viewerFirstLoaded : PhoneViewer :=
  runEvents catalogAB [Event.loadCompleted 0 (sceneWithYaw 0)]

/-- The rotation run that `rotateModel(direction)` starts in state `s` when the yaw of the
current model is `y` (lines 222-224). -/
def runOf (s : PhoneViewer) (direction : Direction) (y : ℚ) : RotationRun :=
  { model := s.currentModelIndex, direction := direction,
    targetRotation := if direction = Direction.left then y + 3 / 10 else y - 3 / 10 }

/-- The entry `e` after line 434: its scene hidden. -/
def hiddenEntry (e : ModelEntry) : ModelEntry :=
  { e with scene := { e.scene with visible := false } }

/-- The entry `e` after lines 442-443: its scene visible, its rotation the identity. -/
def shownEntry (e : ModelEntry) : ModelEntry :=
  { e with scene := { visible := true, rotation := ⟨0, 0, 0⟩ } }

/-- The invariant of visibility along a session: a visible model sits in slot 0 or in the
slot of `currentModelIndex`. -/
def visibleInv (s : PhoneViewer) : Prop :=
  ∀ (i : Int) (e : ModelEntry), getSlot s.phoneModels i = some e →
    e.scene.visible = true → i = 0 ∨ i = s.currentModelIndex

/-- Whether `ev` is the success callback of the load of catalog position `i`. -/
def isLoadCompleted (i : Nat) : Event → Bool
  | Event.loadCompleted j _ => decide (j = i)
  | _ => false

/-- Whether the load of catalog position `i` has succeeded in the session `events`. -/
def loadSucceeded (events : List Event) (i : Nat) : Bool :=
  events.any (isLoadCompleted i)

/-- The field `info` of the entry in slot `i`, if the slot holds one. -/
def infoAt (models : List (Option ModelEntry)) (i : Int) : Option PhoneRecord :=
  (getSlot models i).map ModelEntry.info

/-- The record of catalog position `i` when it has a model path and its load has succeeded
in `events`, and nothing otherwise. -/
def loadedRecord (catalog : List PhoneRecord) (events : List Event) (i : Nat) :
    Option PhoneRecord :=
  match catalog[i]? with
  | some phone => if hasModelPath phone && loadSucceeded events i then some phone else none
  | none => none

/-- The viewer of `catalogAB` after the model of position 0 has loaded and the load of
position 1 has failed. -/
def viewerSecondFailed : PhoneViewer :=
  runEvents catalogAB [Event.loadCompleted 0 (sceneWithYaw 0), Event.loadFailed 1]

/-! ## Lemmas on the registry -/

theorem getSlot_set (models : List (Option ModelEntry)) (j : Nat) (v : ModelEntry) (i : Int) :
    getSlot (models.set j (some v)) i =
      if 0 ≤ i ∧ i.toNat = j ∧ j < models.length then some v else getSlot models i := by
  unfold getSlot
  by_cases hi : 0 ≤ i
  · by_cases hj : i.toNat = j
    · subst hj
      by_cases hl : i.toNat < models.length
      · simp [hi, hl]
      · have hl2 : models.length ≤ i.toNat := Nat.le_of_not_lt hl
        simp [hi, hl, List.set_eq_of_length_le hl2]
    · have hj2 : j ≠ i.toNat := fun h => hj h.symm
      simp [hi, hj, List.getElem?_set_ne hj2]
  · simp [hi]

theorem getSlot_some_lt {models : List (Option ModelEntry)} {i : Int} {e : ModelEntry}
    (h : getSlot models i = some e) : 0 ≤ i ∧ i.toNat < models.length := by
  unfold getSlot at h
  by_cases hi : 0 ≤ i
  · refine ⟨hi, ?_⟩
    by_contra hl
    have hl2 : models.length ≤ i.toNat := Nat.le_of_not_lt hl
    simp [hi, List.getElem?_eq_none hl2] at h
  · simp [hi] at h

theorem getSlot_set_self {models : List (Option ModelEntry)} {i : Int} {e : ModelEntry}
    (h : getSlot models i = some e) (v : ModelEntry) :
    getSlot (models.set i.toNat (some v)) i = some v := by
  have hb := getSlot_some_lt h
  rw [getSlot_set]
  simp [hb.1, hb.2]

theorem getSlot_set_ne (models : List (Option ModelEntry)) (j : Int) (v : ModelEntry)
    (i : Int) (hj : 0 ≤ j) (hne : i ≠ j) :
    getSlot (models.set j.toNat (some v)) i = getSlot models i := by
  rw [getSlot_set]
  have : ¬ (0 ≤ i ∧ i.toNat = j.toNat ∧ j.toNat < models.length) := by
    rintro ⟨hi, he, _⟩
    apply hne
    have h1 := Int.toNat_of_nonneg hi
    have h2 := Int.toNat_of_nonneg hj
    omega
  simp [this]

/-! ## Lemmas on `switchModel` -/

theorem switchModel_out_of_range (s : PhoneViewer) (index : Int)
    (h : index < 0 ∨ index ≥ s.phoneModels.length) : s.switchModel index = s := by
  unfold PhoneViewer.switchModel
  simp [h]

theorem updatePhoneInfo_fields (s : PhoneViewer) (index : Int) :
    (s.updatePhoneInfo index).phoneModels = s.phoneModels ∧
    (s.updatePhoneInfo index).currentModelIndex = s.currentModelIndex ∧
    (s.updatePhoneInfo index).navItems = s.navItems ∧
    (s.updatePhoneInfo index).isAutoRotating = s.isAutoRotating ∧
    (s.updatePhoneInfo index).position0 = s.position0 ∧
    (s.updatePhoneInfo index).frameCallbacks = s.frameCallbacks := by
  unfold PhoneViewer.updatePhoneInfo
  split
  · simp
  · split <;> simp

theorem switchModel_fields (s : PhoneViewer) (index : Int)
    (h0 : 0 ≤ index) (h1 : index < s.phoneModels.length) :
    (s.switchModel index).currentModelIndex = index ∧
    (s.switchModel index).navItems = markActive index 0 s.navItems ∧
    (s.switchModel index).cameraZ = s.position0 ∧
    (s.switchModel index).position0 = s.position0 ∧
    (s.switchModel index).phoneModels.length = s.phoneModels.length := by
  have hr : ¬ (index < 0 ∨ index ≥ s.phoneModels.length) := by omega
  unfold PhoneViewer.switchModel
  simp only [hr, if_false]
  unfold PhoneViewer.controlsReset
  simp only [(updatePhoneInfo_fields _ index).1, (updatePhoneInfo_fields _ index).2.1,
    (updatePhoneInfo_fields _ index).2.2.1, (updatePhoneInfo_fields _ index).2.2.2.2.1]
  refine ⟨?_, ?_, ?_, ?_, ?_⟩
  all_goals (split <;> split <;> simp_all)

theorem getSlot_switchModel (s : PhoneViewer) (index : Int)
    (h0 : 0 ≤ index) (h1 : index < s.phoneModels.length) (i : Int) :
    getSlot (s.switchModel index).phoneModels i =
      if i = index then (getSlot s.phoneModels index).map shownEntry
      else if i = s.currentModelIndex then (getSlot s.phoneModels i).map hiddenEntry
      else getSlot s.phoneModels i := by
  have hr : ¬ (index < 0 ∨ index ≥ s.phoneModels.length) := by omega
  unfold PhoneViewer.switchModel
  simp only [hr, if_false]
  unfold PhoneViewer.controlsReset
  simp only [(updatePhoneInfo_fields _ index).1]
  cases hc : getSlot s.phoneModels s.currentModelIndex with
  | none =>
      simp only []
      cases hx : getSlot s.phoneModels index with
      | none =>
          simp only []
          by_cases hi : i = index
          · simp [hi, hx]
          · by_cases hi2 : i = s.currentModelIndex
            · simp [hi, hi2, hc]
            · simp [hi, hi2]
      | some e =>
          simp only []
          by_cases hi : i = index
          · subst hi
            rw [getSlot_set_self hx]
            simp [shownEntry]
          · rw [getSlot_set_ne _ _ _ _ h0 hi]
            by_cases hi2 : i = s.currentModelIndex
            · subst hi2
              simp [hi, hc]
            · simp [hi, hi2]
  | some c =>
      have hcb := getSlot_some_lt hc
      simp only []
      by_cases hci : index = s.currentModelIndex
      · rw [← hci] at hc
        rw [← hci]
        rw [getSlot_set_self hc]
        simp only []
        by_cases hi : i = index
        · subst hi
          rw [List.set_set]
          rw [getSlot_set_self hc]
          simp [hc, shownEntry]
        · rw [List.set_set, getSlot_set_ne _ _ _ _ h0 hi]
          simp [hi]
      · have hx2 : getSlot (s.phoneModels.set s.currentModelIndex.toNat
            (some { c with scene := { c.scene with visible := false } })) index
            = getSlot s.phoneModels index := getSlot_set_ne _ _ _ _ hcb.1 hci
        simp only [hx2]
        cases hx : getSlot s.phoneModels index with
        | none =>
            simp only []
            by_cases hi : i = index
            · subst hi
              rw [getSlot_set_ne _ _ _ _ hcb.1 hci]
              simp [hx]
            · by_cases hi2 : i = s.currentModelIndex
              · subst hi2
                rw [getSlot_set_self hc]
                simp [hi, hc, hiddenEntry]
              · rw [getSlot_set_ne _ _ _ _ hcb.1 hi2]
                simp [hi, hi2]
        | some e =>
            simp only []
            by_cases hi : i = index
            · subst hi
              have hx3 : getSlot (s.phoneModels.set s.currentModelIndex.toNat
                  (some { c with scene := { c.scene with visible := false } })) i = some e := by
                rw [hx2, hx]
              rw [getSlot_set_self hx3]
              simp [shownEntry]
            · rw [getSlot_set_ne _ _ _ _ h0 hi]
              by_cases hi2 : i = s.currentModelIndex
              · subst hi2
                rw [getSlot_set_self hc]
                simp [hi, hc, hiddenEntry]
              · rw [getSlot_set_ne _ _ _ _ hcb.1 hi2]
                simp [hi, hi2]

theorem markActive_length (index : Int) (items : List NavItem) (k : Nat) :
    (markActive index k items).length = items.length := by
  induction items generalizing k with
  | nil => rfl
  | cons item rest ih => simp [markActive, ih]

theorem markActive_getElem? (index : Int) (items : List NavItem) (k j : Nat) :
    (markActive index k items)[j]? =
      items[j]?.map (fun item => { item with active := decide (((k + j : Nat) : Int) = index) }) := by
  induction items generalizing k j with
  | nil => simp [markActive]
  | cons item rest ih =>
      cases j with
      | zero => simp [markActive]
      | succ j =>
          simp only [markActive, List.getElem?_cons_succ]
          rw [ih]
          have : k + 1 + j = k + (j + 1) := by omega
          rw [this]

theorem markActive_markActive (index : Int) (items : List NavItem) (k : Nat) :
    markActive index k (markActive index k items) = markActive index k items := by
  induction items generalizing k with
  | nil => rfl
  | cons item rest ih => simp [markActive, ih]

theorem eq_of_getSlot_eq {a b : List (Option ModelEntry)} (hl : a.length = b.length)
    (h : ∀ i : Int, getSlot a i = getSlot b i) : a = b := by
  apply List.ext_getElem hl
  intro n h1 h2
  have hn := h (n : Int)
  unfold getSlot at hn
  simp only [Int.ofNat_zero_le, if_true, Int.toNat_ofNat, List.getElem?_eq_getElem h1,
    List.getElem?_eq_getElem h2] at hn
  cases ha : a[n] with
  | none =>
      cases hb : b[n] with
      | none => rfl
      | some y => simp [ha, hb] at hn
  | some x =>
      cases hb : b[n] with
      | none => simp [ha, hb] at hn
      | some y =>
          simp only [ha, hb] at hn
          simpa using hn

theorem switchModel_switchModel_phoneModels (s : PhoneViewer) (index : Int)
    (h0 : 0 ≤ index) (h1 : index < s.phoneModels.length) :
    ((s.switchModel index).switchModel index).phoneModels = (s.switchModel index).phoneModels := by
  have hf := switchModel_fields s index h0 h1
  have h1t : index < (s.switchModel index).phoneModels.length := by rw [hf.2.2.2.2]; exact h1
  have hft := switchModel_fields (s.switchModel index) index h0 h1t
  apply eq_of_getSlot_eq hft.2.2.2.2
  intro i
  rw [getSlot_switchModel _ index h0 h1t i, hf.1]
  by_cases hi : i = index
  · subst hi
    rw [getSlot_switchModel s i h0 h1 i]
    simp only [if_true]
    cases getSlot s.phoneModels i <;> simp [shownEntry]
  · simp [hi]

/-! ## C1: `switchModel` on an invalid or absent index -/

/-- C1 (as stated, refuted): in `viewerWithHole` slot 1 is inside the registry's range and
absent, and `switchModel(1)` changes the state: `currentModelIndex` goes from 0 to 1, the
model of slot 0 goes from visible to hidden, and the active navigation item moves from
position 0 to position 1. -/
theorem switchModel_absent_slot_changes_state :
    (1 : Int) < viewerWithHole.phoneModels.length ∧
    getSlot viewerWithHole.phoneModels 1 = none ∧
    viewerWithHole.currentModelIndex = 0 ∧
    (viewerWithHole.switchModel 1).currentModelIndex = 1 ∧
    visibleIndices viewerWithHole.phoneModels = [0] ∧
    visibleIndices (viewerWithHole.switchModel 1).phoneModels = [] ∧
    viewerWithHole.navItems.map NavItem.active = [true, false, false] ∧
    (viewerWithHole.switchModel 1).navItems.map NavItem.active = [false, true, false] := by
  decide

/-- C1 (amended): for every viewer state and every index outside the registry's range,
`switchModel(index)` changes no state. For an index inside the range whose slot is absent,
`switchModel(index)` sets `currentModelIndex` to `index`, flags the navigation items by
position `index`, leaves the rotation of every registered model unchanged and makes no
model visible: a model visible afterwards was visible before, unchanged, and is not the
one at the previous `currentModelIndex`. -/
theorem switchModel_invalid_or_absent (s : PhoneViewer) (index : Int) :
    ((index < 0 ∨ index ≥ s.phoneModels.length) → s.switchModel index = s) ∧
    ((0 ≤ index ∧ index < s.phoneModels.length ∧ getSlot s.phoneModels index = none) →
      (s.switchModel index).currentModelIndex = index ∧
      (s.switchModel index).navItems = markActive index 0 s.navItems ∧
      (∀ i : Int, (getSlot (s.switchModel index).phoneModels i).map (fun e => e.scene.rotation)
        = (getSlot s.phoneModels i).map (fun e => e.scene.rotation)) ∧
      (∀ (i : Int) (e : ModelEntry), getSlot (s.switchModel index).phoneModels i = some e →
        e.scene.visible = true → i ≠ s.currentModelIndex ∧ getSlot s.phoneModels i = some e)) := by
  refine ⟨switchModel_out_of_range s index, ?_⟩
  rintro ⟨h0, h1, hx⟩
  have hf := switchModel_fields s index h0 h1
  refine ⟨hf.1, hf.2.1, ?_, ?_⟩
  · intro i
    rw [getSlot_switchModel s index h0 h1 i]
    by_cases hi : i = index
    · subst hi
      simp [hx]
    · by_cases hi2 : i = s.currentModelIndex
      · subst hi2
        rw [if_neg hi, if_pos rfl]
        cases getSlot s.phoneModels s.currentModelIndex <;> simp [hiddenEntry]
      · simp [hi, hi2]
  · intro i e he hv
    rw [getSlot_switchModel s index h0 h1 i] at he
    by_cases hi : i = index
    · subst hi
      simp [hx] at he
    · by_cases hi2 : i = s.currentModelIndex
      · subst hi2
        rw [if_neg hi, if_pos rfl] at he
        cases hc : getSlot s.phoneModels s.currentModelIndex with
        | none => simp [hc] at he
        | some c =>
            simp only [hc, Option.map_some', Option.some.injEq] at he
            subst he
            simp [hiddenEntry] at hv
      · simp only [hi, hi2, if_false] at he
        exact ⟨hi2, he⟩

/-- C1 (amended), at concrete inputs: `switchModel(5)` on `viewerWithHole`, whose registry
has length 3, and `switchModel(1)`, whose slot is absent. -/
theorem switchModel_invalid_or_absent_witness :
    viewerWithHole.switchModel 5 = viewerWithHole ∧
    (viewerWithHole.switchModel 1).currentModelIndex = 1 :=
  ⟨(switchModel_invalid_or_absent viewerWithHole 5).1 (by decide),
   ((switchModel_invalid_or_absent viewerWithHole 1).2 (by decide)).1⟩

/-! ## C2: visible models -/

/-- C2 (the code at the failing input): with `catalogAB`, when model 1 loads first, the user
selects it, and model 0 loads afterwards, the models of slots 0 and 1 are both visible. -/
theorem late_first_load_two_visible :
    visibleIndices viewerLateFirst.phoneModels = [0, 1] ∧
    viewerLateFirst.currentModelIndex = 1 := by
  decide

theorem getSlot_setSlot (models : List (Option ModelEntry)) (index : Nat)
    (entry : ModelEntry) (i : Int) :
    getSlot (setSlot models index entry) i
      = if i = (index : Int) then some entry else getSlot models i := by
  unfold setSlot
  split
  · rename_i hlt
    rw [getSlot_set]
    by_cases hi : i = (index : Int)
    · subst hi
      simp [hlt]
    · have : ¬ (0 ≤ i ∧ i.toNat = index ∧ index < models.length) := by
        rintro ⟨h0, h1, _⟩
        apply hi
        have := Int.toNat_of_nonneg h0
        omega
      simp [this, hi]
  · rename_i hge
    unfold getSlot
    by_cases h0 : 0 ≤ i
    · obtain ⟨n, rfl⟩ := Int.eq_ofNat_of_zero_le h0
      simp only [Int.ofNat_zero_le, if_true, Int.toNat_ofNat, Nat.cast_inj]
      by_cases hn : n = index
      · subst hn
        have hl : models.length ≤ n := Nat.le_of_not_lt hge
        have hl2 : (List.replicate (n - models.length) (none : Option ModelEntry)).length
            ≤ n - models.length := by simp
        rw [List.append_assoc, List.getElem?_append_right hl, List.getElem?_append_right hl2]
        simp
      · simp only [hn, if_false]
        by_cases hnl : n < models.length
        · rw [List.append_assoc, List.getElem?_append_left hnl]
        · have hnl2 : models.length ≤ n := Nat.le_of_not_lt hnl
          rw [List.append_assoc, List.getElem?_append_right hnl2, List.getElem?_eq_none hnl2]
          by_cases hni : n - models.length < index - models.length
          · rw [List.getElem?_append_left (by simpa using hni)]
            simp [List.getElem?_replicate, hni]
          · have hlen : (List.replicate (index - models.length) (none : Option ModelEntry)
                ++ [some entry]).length ≤ n - models.length := by
              simp only [List.length_append, List.length_replicate, List.length_singleton]
              omega
            rw [List.getElem?_eq_none hlen]
    · have hi : i ≠ (index : Int) := by omega
      simp [h0, hi]

theorem visibleInv_applyEvent (catalog : List PhoneRecord) (s : PhoneViewer) (ev : Event)
    (h : visibleInv s) : visibleInv (applyEvent catalog s ev) := by
  cases ev with
  | loadCompleted index gltfScene =>
      simp only [applyEvent]
      split
      · split
        · intro i e he hv
          simp only [PhoneViewer.onModelLoaded] at he
          rw [getSlot_setSlot] at he
          by_cases hi : i = (index : Int)
          · rw [if_pos hi] at he
            simp only [Option.some.injEq] at he
            rw [← he] at hv
            simp only [decide_eq_true_eq] at hv
            left
            rw [hi, hv]
            rfl
          · rw [if_neg hi] at he
            exact h i e he hv
        · exact h
      · exact h
  | loadFailed index => exact h
  | loadModelsReturned =>
      simp only [applyEvent]
      have hf := updatePhoneInfo_fields s 0
      unfold visibleInv at *
      rw [hf.1, hf.2.1]
      exact h
  | switchModel index =>
      simp only [applyEvent]
      by_cases hr : index < 0 ∨ index ≥ s.phoneModels.length
      · rw [switchModel_out_of_range s index hr]
        exact h
      · have h0 : 0 ≤ index := by omega
        have h1 : index < s.phoneModels.length := by omega
        have hf := switchModel_fields s index h0 h1
        intro i e he hv
        rw [hf.1]
        rw [getSlot_switchModel s index h0 h1 i] at he
        by_cases hi : i = index
        · exact Or.inr hi
        · rw [if_neg hi] at he
          by_cases hi2 : i = s.currentModelIndex
          · rw [if_pos hi2] at he
            cases hg : getSlot s.phoneModels i with
            | none => simp [hg] at he
            | some c =>
                simp only [hg, Option.map_some', Option.some.injEq] at he
                rw [← he] at hv
                simp [hiddenEntry] at hv
          · rw [if_neg hi2] at he
            rcases h i e he hv with h3 | h3
            · exact Or.inl h3
            · exact absurd h3 hi2

/-- In every state of a session a visible model sits in slot 0 or in the slot of
`currentModelIndex`: the only model that can be visible beside the current one is the
first. -/
theorem visible_only_first_or_current (catalog : List PhoneRecord) (events : List Event) :
    visibleInv (runEvents catalog events) := by
  have hstart : visibleInv (startViewer catalog) := by
    intro i e he
    have hm : (startViewer catalog).phoneModels = [] := by
      unfold startViewer PhoneViewer.loadModelsStart PhoneViewer.createPhoneNavigation
      split <;> rfl
    rw [hm] at he
    have := getSlot_some_lt he
    simp at this
  unfold runEvents
  generalize startViewer catalog = s at hstart
  induction events generalizing s with
  | nil => exact hstart
  | cons ev rest ih => exact ih _ (visibleInv_applyEvent catalog s ev hstart)

/-! ## C3: range of `currentModelIndex` -/

theorem length_setSlot (models : List (Option ModelEntry)) (index : Nat) (entry : ModelEntry) :
    models.length ≤ (setSlot models index entry).length ∧
      index < (setSlot models index entry).length := by
  unfold setSlot
  split
  · simp only [List.length_set]
    omega
  · simp only [List.length_append, List.length_replicate, List.length_singleton]
    omega

theorem indexInv_applyEvent (catalog : List PhoneRecord) (s : PhoneViewer) (ev : Event)
    (h : indexInv s) : indexInv (applyEvent catalog s ev) := by
  cases ev with
  | loadCompleted index gltfScene =>
      simp only [applyEvent]
      split
      · split
        · have hl := (length_setSlot s.phoneModels index
            { scene := { gltfScene with visible := decide (index = 0) }, info := ‹PhoneRecord› }).1
          unfold indexInv at *
          simp only [PhoneViewer.onModelLoaded]
          refine ⟨h.1, ?_⟩
          rcases h.2 with h2 | h2
          · exact Or.inl h2
          · right
            omega
        · exact h
      · exact h
  | loadFailed index => exact h
  | loadModelsReturned =>
      simp only [applyEvent]
      have hf := updatePhoneInfo_fields s 0
      unfold indexInv at *
      rw [hf.1, hf.2.1]
      exact h
  | switchModel index =>
      simp only [applyEvent]
      by_cases hr : index < 0 ∨ index ≥ s.phoneModels.length
      · rw [switchModel_out_of_range s index hr]
        exact h
      · have h0 : 0 ≤ index := by omega
        have h1 : index < s.phoneModels.length := by omega
        have hf := switchModel_fields s index h0 h1
        unfold indexInv
        rw [hf.1, hf.2.2.2.2]
        exact ⟨h0, Or.inr h1⟩

theorem indexInv_foldl (catalog : List PhoneRecord) (events : List Event) (s : PhoneViewer)
    (h : indexInv s) : indexInv (events.foldl (applyEvent catalog) s) := by
  induction events generalizing s with
  | nil => exact h
  | cons ev rest ih => exact ih _ (indexInv_applyEvent catalog s ev h)

theorem indexInv_startViewer (catalog : List PhoneRecord) : indexInv (startViewer catalog) := by
  unfold startViewer PhoneViewer.loadModelsStart PhoneViewer.createPhoneNavigation indexInv
  split <;> simp [initialViewer]

/-- C3 (as stated, refuted): in `viewerFirstFailed` a model is registered (slot 1), and
`currentModelIndex` is 0, whose slot is absent. -/
theorem current_slot_absent_after_first_load_failed :
    hasRegistered viewerFirstFailed.phoneModels = true ∧
    viewerFirstFailed.currentModelIndex = 0 ∧
    getSlot viewerFirstFailed.phoneModels viewerFirstFailed.currentModelIndex = none := by
  decide

/-- C3 (amended): in every state reachable by model-load completions, model-load failures
and `switchModel` calls in which at least one model is registered, `currentModelIndex` is
within the registry's range; the slot at `currentModelIndex` may be absent. -/
theorem currentModelIndex_in_range (catalog : List PhoneRecord) (events : List Event)
    (h : hasRegistered (runEvents catalog events).phoneModels = true) :
    0 ≤ (runEvents catalog events).currentModelIndex ∧
    (runEvents catalog events).currentModelIndex
      < (runEvents catalog events).phoneModels.length := by
  have hinv : indexInv (runEvents catalog events) :=
    indexInv_foldl catalog events _ (indexInv_startViewer catalog)
  have hpos : 0 < (runEvents catalog events).phoneModels.length := by
    unfold hasRegistered at h
    rw [List.any_eq_true] at h
    obtain ⟨x, hx, _⟩ := h
    exact List.length_pos_of_mem hx
  refine ⟨hinv.1, ?_⟩
  rcases hinv.2 with h2 | h2
  · rw [h2]
    exact_mod_cast hpos
  · exact h2

/-- C3 (amended), at `viewerFirstFailed`: index 0 lies inside the registry of length 2. -/
theorem currentModelIndex_in_range_witness :
    hasRegistered viewerFirstFailed.phoneModels = true ∧
    0 ≤ viewerFirstFailed.currentModelIndex ∧
    viewerFirstFailed.currentModelIndex < viewerFirstFailed.phoneModels.length :=
  ⟨by decide,
   currentModelIndex_in_range catalogAB
     [Event.loadFailed 0, Event.loadCompleted 1 (sceneWithYaw 0)] (by decide)⟩

/-! ## C4: operations on an absent current slot -/

/-- C4 (the code at the failing input): in `viewerFirstFailed` the registry is not empty and
the slot at `currentModelIndex` is absent; `rotateModel` throws a `TypeError` for both
directions, and with auto-rotate enabled `animate` throws a `TypeError`. -/
theorem rotate_and_animate_throw_on_absent_slot :
    viewerFirstFailed.phoneModels.length = 2 ∧
    getSlot viewerFirstFailed.phoneModels viewerFirstFailed.currentModelIndex = none ∧
    (viewerFirstFailed.rotateModel Direction.left).error = some JsError.typeError ∧
    (viewerFirstFailed.rotateModel Direction.right).error = some JsError.typeError ∧
    viewerFirstFailed.toggleAutoRotation.isAutoRotating = true ∧
    viewerFirstFailed.toggleAutoRotation.animate.error = some JsError.typeError := by
  decide

/-! ## C5 and C6: zoom -/

theorem zoomCamera_in (s : PhoneViewer) :
    s.zoomCamera ZoomDirection.zoomIn =
      if s.cameraZ > s.minDistance then { s with cameraZ := s.cameraZ - 1 / 2 } else s := by
  unfold PhoneViewer.zoomCamera
  simp

theorem zoomCamera_out (s : PhoneViewer) :
    s.zoomCamera ZoomDirection.zoomOut =
      if s.cameraZ < s.maxDistance then { s with cameraZ := s.cameraZ + 1 / 2 } else s := by
  unfold PhoneViewer.zoomCamera
  simp

/-- C5 (as stated, refuted): with the bounds 2 and 8, `zoomCamera('in')` at distance 2.25
sets the distance to 1.75, below `minDistance`, where the claim gives
`max(2.25 - 0.5, 2) = 2`; `zoomCamera('out')` at distance 7.75 sets it to 8.25, above
`maxDistance`. -/
theorem zoomCamera_overshoots :
    (viewerAtDistance (9 / 4)).minDistance ≤ (viewerAtDistance (9 / 4)).cameraZ ∧
    (viewerAtDistance (9 / 4)).cameraZ ≤ (viewerAtDistance (9 / 4)).maxDistance ∧
    ((viewerAtDistance (9 / 4)).zoomCamera ZoomDirection.zoomIn).cameraZ = 7 / 4 ∧
    ((viewerAtDistance (9 / 4)).zoomCamera ZoomDirection.zoomIn).cameraZ
      ≠ max ((viewerAtDistance (9 / 4)).cameraZ - 1 / 2) (viewerAtDistance (9 / 4)).minDistance ∧
    ((viewerAtDistance (9 / 4)).zoomCamera ZoomDirection.zoomIn).cameraZ
      < (viewerAtDistance (9 / 4)).minDistance ∧
    ((viewerAtDistance (31 / 4)).zoomCamera ZoomDirection.zoomOut).cameraZ = 33 / 4 ∧
    (viewerAtDistance (31 / 4)).maxDistance
      < ((viewerAtDistance (31 / 4)).zoomCamera ZoomDirection.zoomOut).cameraZ := by
  simp only [zoomCamera_in, zoomCamera_out, viewerAtDistance, initialViewer]
  norm_num

/-- C5 (amended): for every camera distance `d` with `minDistance ≤ d ≤ maxDistance`,
`zoomCamera('in')` sets the distance to `d - 0.5` when `d > minDistance` and leaves it
otherwise, and `zoomCamera('out')` sets it to `d + 0.5` when `d < maxDistance` and leaves it
otherwise. The result lies in `(minDistance - 0.5, maxDistance + 0.5)`; it is
`max(d - 0.5, minDistance)` for `in` when `d = minDistance` or `d ≥ minDistance + 0.5`, and
`min(d + 0.5, maxDistance)` for `out` when `d = maxDistance` or `d ≤ maxDistance - 0.5`. -/
theorem zoomCamera_step (s : PhoneViewer)
    (h1 : s.minDistance ≤ s.cameraZ) (h2 : s.cameraZ ≤ s.maxDistance) :
    (s.zoomCamera ZoomDirection.zoomIn).cameraZ
      = (if s.cameraZ > s.minDistance then s.cameraZ - 1 / 2 else s.cameraZ) ∧
    (s.zoomCamera ZoomDirection.zoomOut).cameraZ
      = (if s.cameraZ < s.maxDistance then s.cameraZ + 1 / 2 else s.cameraZ) ∧
    (s.minDistance - 1 / 2 < (s.zoomCamera ZoomDirection.zoomIn).cameraZ ∧
      (s.zoomCamera ZoomDirection.zoomIn).cameraZ ≤ s.maxDistance) ∧
    (s.minDistance ≤ (s.zoomCamera ZoomDirection.zoomOut).cameraZ ∧
      (s.zoomCamera ZoomDirection.zoomOut).cameraZ < s.maxDistance + 1 / 2) ∧
    ((s.cameraZ = s.minDistance ∨ s.minDistance + 1 / 2 ≤ s.cameraZ) →
      (s.zoomCamera ZoomDirection.zoomIn).cameraZ = max (s.cameraZ - 1 / 2) s.minDistance) ∧
    ((s.cameraZ = s.maxDistance ∨ s.cameraZ + 1 / 2 ≤ s.maxDistance) →
      (s.zoomCamera ZoomDirection.zoomOut).cameraZ = min (s.cameraZ + 1 / 2) s.maxDistance) := by
  rw [zoomCamera_in, zoomCamera_out]
  refine ⟨?_, ?_, ⟨?_, ?_⟩, ⟨?_, ?_⟩, ?_, ?_⟩
  · split <;> rfl
  · split <;> rfl
  · split
    · show s.minDistance - 1 / 2 < s.cameraZ - 1 / 2
      linarith
    · linarith
  · split
    · show s.cameraZ - 1 / 2 ≤ s.maxDistance
      linarith
    · exact h2
  · split
    · show s.minDistance ≤ s.cameraZ + 1 / 2
      linarith
    · exact h1
  · split
    · show s.cameraZ + 1 / 2 < s.maxDistance + 1 / 2
      linarith
    · linarith
  · intro h
    split
    · rename_i hgt
      show s.cameraZ - 1 / 2 = max (s.cameraZ - 1 / 2) s.minDistance
      rcases h with h | h
      · exact absurd h (ne_of_gt hgt)
      · rw [max_eq_left (by linarith)]
    · rename_i hgt
      have heq : s.cameraZ = s.minDistance := le_antisymm (not_lt.mp hgt) h1
      rw [heq, max_eq_right (by linarith)]
  · intro h
    split
    · rename_i hlt
      show s.cameraZ + 1 / 2 = min (s.cameraZ + 1 / 2) s.maxDistance
      rcases h with h | h
      · exact absurd h (ne_of_lt hlt)
      · rw [min_eq_left (by linarith)]
    · rename_i hlt
      have heq : s.cameraZ = s.maxDistance := le_antisymm h2 (not_lt.mp hlt)
      rw [heq, min_eq_right (by linarith)]

/-- C5 (amended), at the distance 5 of the tests: `in` gives 4.5 and `out` gives 5.5. -/
theorem zoomCamera_step_witness :
    (initialViewer.zoomCamera ZoomDirection.zoomIn).cameraZ = 9 / 2 ∧
    (initialViewer.zoomCamera ZoomDirection.zoomOut).cameraZ = 11 / 2 := by
  have h := zoomCamera_step initialViewer (by norm_num [initialViewer])
    (by norm_num [initialViewer])
  refine ⟨?_, ?_⟩
  · rw [h.1]
    norm_num [initialViewer]
  · rw [h.2.1]
    norm_num [initialViewer]

theorem zoomInv_zoomCamera (s : PhoneViewer) (direction : ZoomDirection) (h : zoomInv s) :
    zoomInv (s.zoomCamera direction) := by
  obtain ⟨hmin, hmax, k, hk4, hk16, hz⟩ := h
  cases direction with
  | zoomIn =>
      rw [zoomCamera_in]
      split
      · rename_i hgt
        rw [hmin, hz] at hgt
        have hk : (4 : ℚ) < k := by linarith
        have hk5 : 5 ≤ k := by exact_mod_cast hk
        refine ⟨hmin, hmax, k - 1, by omega, by omega, ?_⟩
        show s.cameraZ - 1 / 2 = ((k - 1 : Nat) : ℚ) / 2
        rw [hz, Nat.cast_sub (by omega)]
        push_cast
        ring
      · exact ⟨hmin, hmax, k, hk4, hk16, hz⟩
  | zoomOut =>
      rw [zoomCamera_out]
      split
      · rename_i hlt
        rw [hmax, hz] at hlt
        have hk : (k : ℚ) < 16 := by linarith
        have hk15 : k < 16 := by exact_mod_cast hk
        refine ⟨hmin, hmax, k + 1, by omega, by omega, ?_⟩
        show s.cameraZ + 1 / 2 = ((k + 1 : Nat) : ℚ) / 2
        rw [hz]
        push_cast
        ring
      · exact ⟨hmin, hmax, k, hk4, hk16, hz⟩

theorem zoomInv_foldl (directions : List ZoomDirection) (s : PhoneViewer) (h : zoomInv s) :
    zoomInv (directions.foldl PhoneViewer.zoomCamera s) := by
  induction directions generalizing s with
  | nil => exact h
  | cons d rest ih => exact ih _ (zoomInv_zoomCamera s d h)

/-- C6: starting from the initial viewer (camera distance 5, `minDistance` 2, `maxDistance`
8), after every finite sequence of `zoomCamera('in')` and `zoomCamera('out')` calls the
camera distance lies in `[2, 8]`. -/
theorem zoom_sequence_in_range (directions : List ZoomDirection) :
    initialViewer.cameraZ = 5 ∧
    initialViewer.minDistance = 2 ∧
    initialViewer.maxDistance = 8 ∧
    2 ≤ (directions.foldl PhoneViewer.zoomCamera initialViewer).cameraZ ∧
    (directions.foldl PhoneViewer.zoomCamera initialViewer).cameraZ ≤ 8 := by
  have h0 : zoomInv initialViewer :=
    ⟨rfl, rfl, 10, by omega, by omega, by norm_num [initialViewer]⟩
  obtain ⟨_, _, k, hk4, hk16, hz⟩ := zoomInv_foldl directions initialViewer h0
  have h4 : (4 : ℚ) ≤ k := by exact_mod_cast hk4
  have h16 : (k : ℚ) ≤ 16 := by exact_mod_cast hk16
  refine ⟨rfl, rfl, rfl, ?_, ?_⟩
  · rw [hz]
    linarith
  · rw [hz]
    linarith

/-! ## C7 and C8: `switchModel` on a valid index -/

/-- C7: for every viewer state in which no model other than the one at `currentModelIndex`
is visible, and every in-range index whose slot holds an entry `e`, after
`switchModel(index)`: `currentModelIndex` equals `index`; the entry at `index` is `e` made
visible with rotation `(0, 0, 0)`; every other registered entry is not visible; and a
navigation item is flagged active exactly when its position is `index`, the list keeping
its length. -/
theorem switchModel_shows_target (s : PhoneViewer) (index : Int) (e : ModelEntry)
    (hvis : ∀ (i : Int) (c : ModelEntry), getSlot s.phoneModels i = some c →
      c.scene.visible = true → i = s.currentModelIndex)
    (h0 : 0 ≤ index) (h1 : index < s.phoneModels.length)
    (he : getSlot s.phoneModels index = some e) :
    (s.switchModel index).currentModelIndex = index ∧
    getSlot (s.switchModel index).phoneModels index
      = some { scene := { visible := true, rotation := ⟨0, 0, 0⟩ }, info := e.info } ∧
    (∀ (i : Int) (c : ModelEntry), i ≠ index →
      getSlot (s.switchModel index).phoneModels i = some c → c.scene.visible = false) ∧
    (s.switchModel index).navItems.length = s.navItems.length ∧
    (∀ (j : Nat) (item : NavItem), (s.switchModel index).navItems[j]? = some item →
      (item.active = true ↔ (j : Int) = index)) := by
  have hf := switchModel_fields s index h0 h1
  refine ⟨hf.1, ?_, ?_, ?_, ?_⟩
  · rw [getSlot_switchModel s index h0 h1 index, if_pos rfl, he]
    rfl
  · intro i c hi hc
    rw [getSlot_switchModel s index h0 h1 i, if_neg hi] at hc
    by_cases hi2 : i = s.currentModelIndex
    · rw [if_pos hi2] at hc
      cases hg : getSlot s.phoneModels i with
      | none => simp [hg] at hc
      | some c0 =>
          simp only [hg, Option.map_some', Option.some.injEq] at hc
          rw [← hc]
          rfl
    · rw [if_neg hi2] at hc
      cases hv : c.scene.visible with
      | false => rfl
      | true => exact absurd (hvis i c hc hv) hi2
  · rw [hf.2.1, markActive_length]
  · intro j item hj
    rw [hf.2.1, markActive_getElem?] at hj
    cases hg : s.navItems[j]? with
    | none => simp [hg] at hj
    | some it =>
        simp only [hg, Option.map_some', Option.some.injEq] at hj
        rw [← hj]
        simp

/-- C7, at `viewerBothLoaded`: after `switchModel(1)` the current index is 1, only slot 1
is visible, and only navigation item 1 is active. -/
theorem switchModel_shows_target_witness :
    (viewerBothLoaded.switchModel 1).currentModelIndex = 1 ∧
    visibleIndices (viewerBothLoaded.switchModel 1).phoneModels = [1] ∧
    (viewerBothLoaded.switchModel 1).navItems.map NavItem.active = [false, true] :=
  ⟨(switchModel_shows_target viewerBothLoaded 1
      { scene := { visible := false, rotation := ⟨0, 0, 0⟩ },
        info := { id := 2, name := "B", model_path := some "/b.glb" } }
      (by
        intro i c hc hv
        have hb := getSlot_some_lt hc
        have hlen : viewerBothLoaded.phoneModels.length = 2 := by decide
        rw [hlen] at hb
        have hi : i = 0 ∨ i = 1 := by omega
        rcases hi with hi | hi
        · subst hi
          decide
        · subst hi
          have h1 : getSlot viewerBothLoaded.phoneModels 1
              = some { scene := { visible := false, rotation := ⟨0, 0, 0⟩ },
                       info := { id := 2, name := "B", model_path := some "/b.glb" } } := by
            decide
          rw [h1] at hc
          simp only [Option.some.injEq] at hc
          rw [← hc] at hv
          simp at hv)
      (by decide) (by decide) (by decide)).1,
   by decide, by decide⟩

/-- C8: for every viewer state and every index within the registry's range, applying
`switchModel(index)` twice in a row yields the same `currentModelIndex`, the same registry
and so the same set of visible models as applying it once. -/
theorem switchModel_twice (s : PhoneViewer) (index : Int)
    (h0 : 0 ≤ index) (h1 : index < s.phoneModels.length) :
    ((s.switchModel index).switchModel index).currentModelIndex
      = (s.switchModel index).currentModelIndex ∧
    ((s.switchModel index).switchModel index).phoneModels = (s.switchModel index).phoneModels ∧
    visibleIndices ((s.switchModel index).switchModel index).phoneModels
      = visibleIndices (s.switchModel index).phoneModels := by
  have hf := switchModel_fields s index h0 h1
  have h1t : index < (s.switchModel index).phoneModels.length := by rw [hf.2.2.2.2]; exact h1
  have hft := switchModel_fields (s.switchModel index) index h0 h1t
  have hp := switchModel_switchModel_phoneModels s index h0 h1
  refine ⟨by rw [hft.1, hf.1], hp, by rw [hp]⟩

/-- C8, at `viewerWithHole` and index 2: one or two calls give index 2 and slot 2 visible. -/
theorem switchModel_twice_witness :
    ((viewerWithHole.switchModel 2).switchModel 2).currentModelIndex = 2 ∧
    (viewerWithHole.switchModel 2).currentModelIndex = 2 ∧
    visibleIndices ((viewerWithHole.switchModel 2).switchModel 2).phoneModels = [2] ∧
    visibleIndices (viewerWithHole.switchModel 2).phoneModels = [2] := by
  have h := switchModel_twice viewerWithHole 2 (by decide) (by decide)
  have h2 : (viewerWithHole.switchModel 2).currentModelIndex = 2 := by decide
  have h3 : visibleIndices (viewerWithHole.switchModel 2).phoneModels = [2] := by decide
  exact ⟨by rw [h.1, h2], h2, by rw [h.2.2, h3], h3⟩

/-! ## Lemmas on animation frames -/

theorem yawOf_mapYaw (models : List (Option ModelEntry)) (i : Int) (f : ℚ → ℚ) (j : Int) :
    yawOf (mapYaw models i f) j = if j = i then (yawOf models i).map f else yawOf models j := by
  unfold yawOf mapYaw
  cases h : getSlot models i with
  | none =>
      simp only []
      by_cases hj : j = i
      · subst hj
        simp [h]
      · simp [hj]
  | some e =>
      have hb := getSlot_some_lt h
      simp only []
      by_cases hj : j = i
      · subst hj
        rw [getSlot_set_self h]
        simp
      · rw [getSlot_set_ne _ _ _ _ hb.1 hj]
        simp [hj]

theorem yawAt_eq_yawOf (s : PhoneViewer) (m : Int) : yawAt s m = yawOf s.phoneModels m := rfl

theorem animateRotation_fields (s : PhoneViewer) (run : RotationRun) :
    (s.animateRotation run).frameCallbacks
      = s.frameCallbacks ++ [FrameCallback.animateRotation run] ∧
    (s.animateRotation run).isAutoRotating = s.isAutoRotating ∧
    (s.animateRotation run).currentModelIndex = s.currentModelIndex ∧
    (s.animateRotation run).phoneModels = mapYaw s.phoneModels run.model (stepYaw run) :=
  ⟨rfl, rfl, rfl, rfl⟩

theorem animate_fields (s : PhoneViewer) :
    s.animate.state.frameCallbacks = s.frameCallbacks ++ [FrameCallback.animate] ∧
    s.animate.state.isAutoRotating = s.isAutoRotating ∧
    s.animate.state.currentModelIndex = s.currentModelIndex := by
  unfold PhoneViewer.animate PhoneViewer.requestAnimationFrame
  simp only []
  split
  · split <;> exact ⟨rfl, rfl, rfl⟩
  · exact ⟨rfl, rfl, rfl⟩

theorem animate_phoneModels_of_off (s : PhoneViewer) (h : s.isAutoRotating = false) :
    s.animate.state.phoneModels = s.phoneModels ∧ s.animate.error = none := by
  unfold PhoneViewer.animate PhoneViewer.requestAnimationFrame
  simp [h]

theorem runCallback_fields (s : PhoneViewer) (cb : FrameCallback) :
    (s.runCallback cb).frameCallbacks = s.frameCallbacks ++ [cb] ∧
    (s.runCallback cb).isAutoRotating = s.isAutoRotating ∧
    (s.runCallback cb).currentModelIndex = s.currentModelIndex := by
  cases cb with
  | animate => exact animate_fields s
  | animateRotation run =>
      exact ⟨(animateRotation_fields s run).1, (animateRotation_fields s run).2.1,
        (animateRotation_fields s run).2.2.1⟩

theorem foldl_runCallback_fields (cbs : List FrameCallback) (s : PhoneViewer) :
    (cbs.foldl PhoneViewer.runCallback s).frameCallbacks = s.frameCallbacks ++ cbs ∧
    (cbs.foldl PhoneViewer.runCallback s).isAutoRotating = s.isAutoRotating ∧
    (cbs.foldl PhoneViewer.runCallback s).currentModelIndex = s.currentModelIndex := by
  induction cbs generalizing s with
  | nil => simp
  | cons cb rest ih =>
      have hf := runCallback_fields s cb
      have hr := ih (s.runCallback cb)
      simp only [List.foldl_cons]
      rw [hr.1, hr.2.1, hr.2.2, hf.1, hf.2.1, hf.2.2]
      simp

theorem frame_fields (s : PhoneViewer) :
    s.frame.frameCallbacks = s.frameCallbacks ∧
    s.frame.isAutoRotating = s.isAutoRotating ∧
    s.frame.currentModelIndex = s.currentModelIndex := by
  unfold PhoneViewer.frame
  have h := foldl_runCallback_fields s.frameCallbacks { s with frameCallbacks := [] }
  rw [h.1, h.2.1, h.2.2]
  simp

theorem frames_fields (s : PhoneViewer) (n : Nat) :
    (s.frames n).frameCallbacks = s.frameCallbacks ∧
    (s.frames n).isAutoRotating = s.isAutoRotating ∧
    (s.frames n).currentModelIndex = s.currentModelIndex := by
  induction n with
  | zero => exact ⟨rfl, rfl, rfl⟩
  | succ n ih =>
      have h := frame_fields (s.frames n)
      simp only [PhoneViewer.frames]
      rw [h.1, h.2.1, h.2.2]
      exact ih

theorem yawAt_runCallback_other (s : PhoneViewer) (cb : FrameCallback) (m : Int)
    (hoff : s.isAutoRotating = false) (hcb : noRunOn m [cb]) :
    yawAt (s.runCallback cb) m = yawAt s m := by
  cases cb with
  | animate =>
      simp only [PhoneViewer.runCallback, yawAt_eq_yawOf]
      rw [(animate_phoneModels_of_off s hoff).1]
  | animateRotation run =>
      have hne : run.model ≠ m := hcb run (by simp)
      simp only [PhoneViewer.runCallback, yawAt_eq_yawOf]
      rw [(animateRotation_fields s run).2.2.2, yawOf_mapYaw]
      rw [if_neg (fun h => hne h.symm)]

theorem yawAt_foldl_other (cbs : List FrameCallback) (s : PhoneViewer) (m : Int)
    (hoff : s.isAutoRotating = false) (hcbs : noRunOn m cbs) :
    yawAt (cbs.foldl PhoneViewer.runCallback s) m = yawAt s m := by
  induction cbs generalizing s with
  | nil => rfl
  | cons cb rest ih =>
      simp only [List.foldl_cons]
      have hoff2 : (s.runCallback cb).isAutoRotating = false := by
        rw [(runCallback_fields s cb).2.1]
        exact hoff
      have hrest : noRunOn m rest := fun run hr => hcbs run (List.mem_cons_of_mem _ hr)
      have hcb : noRunOn m [cb] := fun run hr => hcbs run (by
        rw [List.mem_singleton] at hr
        rw [hr]
        exact List.mem_cons_self _ _)
      rw [ih (s.runCallback cb) hoff2 hrest, yawAt_runCallback_other s cb m hoff hcb]

theorem yawAt_frame_single_run (s : PhoneViewer) (q : List FrameCallback) (run : RotationRun)
    (hoff : s.isAutoRotating = false)
    (hq : s.frameCallbacks = q ++ [FrameCallback.animateRotation run])
    (hno : noRunOn run.model q) :
    yawAt s.frame run.model = (yawAt s run.model).map (stepYaw run) := by
  unfold PhoneViewer.frame
  rw [hq, List.foldl_append]
  simp only [List.foldl_cons, List.foldl_nil, PhoneViewer.runCallback]
  rw [yawAt_eq_yawOf, (animateRotation_fields _ run).2.2.2, yawOf_mapYaw, if_pos rfl,
    ← yawAt_eq_yawOf,
    yawAt_foldl_other q { s with frameCallbacks := [] } run.model hoff hno]
  rfl

theorem yawAt_frames_single_run (s : PhoneViewer) (q : List FrameCallback) (run : RotationRun)
    (hoff : s.isAutoRotating = false)
    (hq : s.frameCallbacks = q ++ [FrameCallback.animateRotation run])
    (hno : noRunOn run.model q) (n : Nat) :
    yawAt (s.frames n) run.model = (yawAt s run.model).map (stepYaw run)^[n] := by
  induction n with
  | zero => simp [PhoneViewer.frames]
  | succ n ih =>
      have hf := frames_fields s n
      simp only [PhoneViewer.frames]
      rw [yawAt_frame_single_run (s.frames n) q run (by rw [hf.2.1]; exact hoff)
        (by rw [hf.1]; exact hq) hno, ih]
      cases yawAt s run.model with
      | none => rfl
      | some v => simp only [Option.map_some', Function.iterate_succ_apply']

/-! ## Lemmas on rotation runs -/

theorem stepYaw_iterate_left (run : RotationRun) (y : ℚ) (hd : run.direction = Direction.left)
    (hy : y ≤ run.targetRotation) (n : Nat) :
    (stepYaw run)^[n] y = min (y + (n : ℚ) / 100) run.targetRotation := by
  induction n with
  | zero => simp [min_eq_left hy]
  | succ n ih =>
      rw [Function.iterate_succ_apply', ih]
      unfold stepYaw
      by_cases hlt : y + (n : ℚ) / 100 < run.targetRotation
      · rw [min_eq_left (le_of_lt hlt)]
        simp only [hd, hlt, and_self, if_true]
        congr 1
        push_cast
        ring
      · have hge : run.targetRotation ≤ y + (n : ℚ) / 100 := not_lt.mp hlt
        rw [min_eq_right hge]
        simp only [hd, lt_irrefl, and_false, if_false, gt_iff_lt, reduceCtorEq, false_and]
        rw [min_eq_right]
        push_cast
        linarith

theorem stepYaw_iterate_right (run : RotationRun) (y : ℚ)
    (hd : run.direction = Direction.right) (hy : run.targetRotation ≤ y) (n : Nat) :
    (stepYaw run)^[n] y = max (y - (n : ℚ) / 100) run.targetRotation := by
  induction n with
  | zero => simp [max_eq_left hy]
  | succ n ih =>
      rw [Function.iterate_succ_apply', ih]
      unfold stepYaw
      by_cases hlt : run.targetRotation < y - (n : ℚ) / 100
      · rw [max_eq_left (le_of_lt hlt)]
        simp only [hd, hlt, and_self, if_true, reduceCtorEq, false_and, if_false, gt_iff_lt]
        congr 1
        push_cast
        ring
      · have hge : y - (n : ℚ) / 100 ≤ run.targetRotation := not_lt.mp hlt
        rw [max_eq_right hge]
        simp only [hd, lt_irrefl, and_false, if_false, gt_iff_lt, reduceCtorEq, false_and]
        rw [max_eq_right]
        push_cast
        linarith

theorem rotateModel_of_yaw (s : PhoneViewer) (direction : Direction) (y : ℚ)
    (hy : yawAt s s.currentModelIndex = some y) :
    (s.rotateModel direction).error = none ∧
    (s.rotateModel direction).state = s.animateRotation (runOf s direction y) := by
  unfold yawAt at hy
  cases hg : getSlot s.phoneModels s.currentModelIndex with
  | none => simp [hg] at hy
  | some e =>
      have hb := getSlot_some_lt hg
      have hlen : s.phoneModels.length ≠ 0 := by omega
      simp only [hg, Option.map_some', Option.some.injEq] at hy
      unfold PhoneViewer.rotateModel runOf
      simp only [hlen, if_false, hg, hy]
      exact ⟨trivial, trivial⟩

theorem yawAt_rotateModel_frames (s : PhoneViewer) (direction : Direction) (y : ℚ)
    (hoff : s.isAutoRotating = false)
    (hy : yawAt s s.currentModelIndex = some y)
    (hno : noRunOn s.currentModelIndex s.frameCallbacks) (n : Nat) :
    yawAt ((s.rotateModel direction).state.frames n) s.currentModelIndex
      = some ((stepYaw (runOf s direction y))^[n + 1] y) := by
  rw [(rotateModel_of_yaw s direction y hy).2]
  have hf := animateRotation_fields s (runOf s direction y)
  have hm : (runOf s direction y).model = s.currentModelIndex := rfl
  have h := yawAt_frames_single_run (s.animateRotation (runOf s direction y)) s.frameCallbacks
    (runOf s direction y) (by rw [hf.2.1]; exact hoff) hf.1 (by rw [hm]; exact hno) n
  rw [hm] at h
  rw [h, yawAt_eq_yawOf, hf.2.2.2, yawOf_mapYaw, hm, if_pos rfl, ← yawAt_eq_yawOf, hy]
  simp only [Option.map_some', Function.iterate_succ_apply]

theorem yawAt_rotateModel_left (s : PhoneViewer) (y : ℚ)
    (hoff : s.isAutoRotating = false)
    (hy : yawAt s s.currentModelIndex = some y)
    (hno : noRunOn s.currentModelIndex s.frameCallbacks) (n : Nat) :
    yawAt ((s.rotateModel Direction.left).state.frames n) s.currentModelIndex
      = some (min (y + ((n : ℚ) + 1) / 100) (y + 3 / 10)) := by
  rw [yawAt_rotateModel_frames s Direction.left y hoff hy hno n,
    stepYaw_iterate_left (runOf s Direction.left y) y rfl (by simp [runOf]; norm_num)]
  simp [runOf]

theorem yawAt_rotateModel_right (s : PhoneViewer) (y : ℚ)
    (hoff : s.isAutoRotating = false)
    (hy : yawAt s s.currentModelIndex = some y)
    (hno : noRunOn s.currentModelIndex s.frameCallbacks) (n : Nat) :
    yawAt ((s.rotateModel Direction.right).state.frames n) s.currentModelIndex
      = some (max (y - ((n : ℚ) + 1) / 100) (y - 3 / 10)) := by
  rw [yawAt_rotateModel_frames s Direction.right y hoff hy hno n,
    stepYaw_iterate_right (runOf s Direction.right y) y rfl (by simp [runOf]; norm_num)]
  simp [runOf]

theorem noRunOn_viewerFirstLoaded : noRunOn 0 viewerFirstLoaded.frameCallbacks := by
  intro run hrun
  have hq : viewerFirstLoaded.frameCallbacks = [FrameCallback.animate] := by decide
  rw [hq] at hrun
  simp at hrun

/-! ## C9: convergence of one rotation run -/

/-- C9: for every yaw `y` of the current model (exact arithmetic), with auto-rotate off and
no other rotation run waiting on that model, one `rotateModel('left')` returns without
error with the yaw at `y + 0.01`, strictly above `y`; after `n` further frames the yaw is
`min(y + (n + 1) * 0.01, y + 0.3)`, so it never exceeds `y + 0.3`, and from the 29th frame
on (30 steps) it is exactly `y + 0.3`. `rotateModel('right')` is symmetric: `y - 0.01` at
return, `max(y - (n + 1) * 0.01, y - 0.3)` after `n` frames, exactly `y - 0.3` from the
29th frame on. -/
theorem rotateModel_converges (s : PhoneViewer) (y : ℚ)
    (hoff : s.isAutoRotating = false)
    (hy : yawAt s s.currentModelIndex = some y)
    (hno : noRunOn s.currentModelIndex s.frameCallbacks) :
    ((s.rotateModel Direction.left).error = none ∧
      yawAt (s.rotateModel Direction.left).state s.currentModelIndex = some (y + 1 / 100) ∧
      y < y + 1 / 100 ∧
      (∀ n : Nat, yawAt ((s.rotateModel Direction.left).state.frames n) s.currentModelIndex
        = some (min (y + ((n : ℚ) + 1) / 100) (y + 3 / 10))) ∧
      (∀ n : Nat, 29 ≤ n →
        yawAt ((s.rotateModel Direction.left).state.frames n) s.currentModelIndex
          = some (y + 3 / 10))) ∧
    ((s.rotateModel Direction.right).error = none ∧
      yawAt (s.rotateModel Direction.right).state s.currentModelIndex = some (y - 1 / 100) ∧
      y - 1 / 100 < y ∧
      (∀ n : Nat, yawAt ((s.rotateModel Direction.right).state.frames n) s.currentModelIndex
        = some (max (y - ((n : ℚ) + 1) / 100) (y - 3 / 10))) ∧
      (∀ n : Nat, 29 ≤ n →
        yawAt ((s.rotateModel Direction.right).state.frames n) s.currentModelIndex
          = some (y - 3 / 10))) := by
  refine ⟨⟨(rotateModel_of_yaw s Direction.left y hy).1, ?_, by linarith,
      yawAt_rotateModel_left s y hoff hy hno, ?_⟩,
    ⟨(rotateModel_of_yaw s Direction.right y hy).1, ?_, by linarith,
      yawAt_rotateModel_right s y hoff hy hno, ?_⟩⟩
  · have h := yawAt_rotateModel_left s y hoff hy hno 0
    simp only [PhoneViewer.frames] at h
    rw [h, min_eq_left (by norm_num)]
    norm_num
  · intro n hn
    have hn2 : (29 : ℚ) ≤ n := by exact_mod_cast hn
    rw [yawAt_rotateModel_left s y hoff hy hno n, min_eq_right (by linarith)]
  · have h := yawAt_rotateModel_right s y hoff hy hno 0
    simp only [PhoneViewer.frames] at h
    rw [h, max_eq_left (by norm_num; linarith)]
    norm_num
  · intro n hn
    have hn2 : (29 : ℚ) ≤ n := by exact_mod_cast hn
    rw [yawAt_rotateModel_right s y hoff hy hno n, max_eq_right (by linarith)]

/-- C9, at `viewerFirstLoaded` (yaw 0): after `rotateModel('left')` and 29 frames the yaw is
0.3, and it is 0.3 after 100 frames. -/
theorem rotateModel_converges_witness :
    yawAt ((viewerFirstLoaded.rotateModel Direction.left).state.frames 29) 0 = some (3 / 10) ∧
    yawAt ((viewerFirstLoaded.rotateModel Direction.left).state.frames 100) 0
      = some (3 / 10) := by
  have h := (rotateModel_converges viewerFirstLoaded 0 (by decide) (by decide)
    noRunOn_viewerFirstLoaded).1.2.2.2.2
  have hc : viewerFirstLoaded.currentModelIndex = 0 := by decide
  rw [hc] at h
  have h29 := h 29 (by omega)
  have h100 := h 100 (by omega)
  rw [zero_add] at h29 h100
  exact ⟨h29, h100⟩

/-! ## C10: scheduling of a rotation run -/

/-- C10 (the code at the failing input): every execution of `animateRotation` registers the
callback for the next frame, whatever the yaw is (line 228 precedes the tests). With
`viewerFirstLoaded` and `rotateModel('left')`, on every frame from the 29th on the yaw is
at the target 0.3 and the run's callback is still registered for the frame after. -/
theorem rotation_run_never_stops_scheduling :
    (∀ (s : PhoneViewer) (run : RotationRun),
      FrameCallback.animateRotation run ∈ (s.animateRotation run).frameCallbacks) ∧
    (∀ n : Nat,
      yawAt ((viewerFirstLoaded.rotateModel Direction.left).state.frames (29 + n)) 0
        = some (3 / 10) ∧
      FrameCallback.animateRotation
          { model := 0, direction := Direction.left, targetRotation := 3 / 10 }
        ∈ ((viewerFirstLoaded.rotateModel Direction.left).state.frames (29 + n)).frameCallbacks) := by
  refine ⟨?_, ?_⟩
  · intro s run
    rw [(animateRotation_fields s run).1]
    simp
  · intro n
    have hc : viewerFirstLoaded.currentModelIndex = 0 := by decide
    have hy : yawAt viewerFirstLoaded viewerFirstLoaded.currentModelIndex = some 0 := by decide
    have hno : noRunOn viewerFirstLoaded.currentModelIndex viewerFirstLoaded.frameCallbacks := by
      rw [hc]
      exact noRunOn_viewerFirstLoaded
    refine ⟨?_, ?_⟩
    · have h := yawAt_rotateModel_left viewerFirstLoaded 0 (by decide) hy hno (29 + n)
      rw [hc] at h
      rw [h, min_eq_right]
      · norm_num
      · push_cast
        have hn : (0 : ℚ) ≤ n := Nat.cast_nonneg n
        linarith
    · rw [(frames_fields _ (29 + n)).1, (rotateModel_of_yaw viewerFirstLoaded Direction.left 0 hy).2,
        (animateRotation_fields _ _).1]
      have hr : runOf viewerFirstLoaded Direction.left 0
          = { model := 0, direction := Direction.left, targetRotation := 3 / 10 } := by
        simp [runOf, hc]
      rw [hr]
      simp

/-! ## C11: the registry after the loads -/

theorem infoAt_switchModel (s : PhoneViewer) (index : Int) (i : Int) :
    infoAt (s.switchModel index).phoneModels i = infoAt s.phoneModels i := by
  by_cases hr : index < 0 ∨ index ≥ s.phoneModels.length
  · rw [switchModel_out_of_range s index hr]
  · have h0 : 0 ≤ index := by omega
    have h1 : index < s.phoneModels.length := by omega
    unfold infoAt
    rw [getSlot_switchModel s index h0 h1 i]
    by_cases hi : i = index
    · subst hi
      rw [if_pos rfl]
      cases getSlot s.phoneModels i <;> rfl
    · rw [if_neg hi]
      by_cases hi2 : i = s.currentModelIndex
      · rw [if_pos hi2]
        cases getSlot s.phoneModels i <;> rfl
      · rw [if_neg hi2]

theorem infoAt_applyEvent (catalog : List PhoneRecord) (s : PhoneViewer) (ev : Event)
    (i : Nat) :
    infoAt (applyEvent catalog s ev).phoneModels i =
      if isLoadCompleted i ev = true then
        match catalog[i]? with
        | some phone => if hasModelPath phone = true then some phone else infoAt s.phoneModels i
        | none => infoAt s.phoneModels i
      else infoAt s.phoneModels i := by
  cases ev with
  | loadCompleted j gltfScene =>
      simp only [applyEvent, isLoadCompleted, decide_eq_true_eq]
      by_cases hj : j = i
      · subst hj
        rw [if_pos rfl]
        cases catalog[j]? with
        | none => rfl
        | some phone =>
            simp only []
            by_cases hp : hasModelPath phone = true
            · rw [if_pos hp, if_pos hp]
              unfold infoAt
              simp only [PhoneViewer.onModelLoaded]
              rw [getSlot_setSlot, if_pos rfl]
              rfl
            · rw [if_neg hp, if_neg hp]
      · rw [if_neg hj]
        cases catalog[j]? with
        | none => rfl
        | some phone =>
            simp only []
            by_cases hp : hasModelPath phone = true
            · rw [if_pos hp]
              unfold infoAt
              simp only [PhoneViewer.onModelLoaded]
              have hne : (i : Int) ≠ (j : Int) := by omega
              rw [getSlot_setSlot, if_neg hne]
            · rw [if_neg hp]
  | loadFailed j => simp [applyEvent, isLoadCompleted]
  | loadModelsReturned =>
      simp only [applyEvent, isLoadCompleted, Bool.false_eq_true, if_false]
      rw [(updatePhoneInfo_fields s 0).1]
  | switchModel index =>
      simp only [applyEvent, isLoadCompleted, Bool.false_eq_true, if_false]
      exact infoAt_switchModel s index i

theorem runEvents_append_singleton (catalog : List PhoneRecord) (events : List Event)
    (ev : Event) :
    runEvents catalog (events ++ [ev]) = applyEvent catalog (runEvents catalog events) ev := by
  unfold runEvents
  rw [List.foldl_append]
  rfl

theorem phoneModels_startViewer (catalog : List PhoneRecord) :
    (startViewer catalog).phoneModels = [] := by
  unfold startViewer PhoneViewer.loadModelsStart PhoneViewer.createPhoneNavigation
  split <;> rfl

theorem infoAt_runEvents (catalog : List PhoneRecord) (events : List Event) (i : Nat) :
    infoAt (runEvents catalog events).phoneModels i = loadedRecord catalog events i := by
  induction events using List.reverseRecOn with
  | nil =>
      have h : runEvents catalog [] = startViewer catalog := rfl
      rw [h, phoneModels_startViewer]
      unfold loadedRecord loadSucceeded infoAt getSlot
      cases catalog[i]? <;> simp
  | append_singleton l ev ih =>
      rw [runEvents_append_singleton, infoAt_applyEvent, ih]
      unfold loadedRecord loadSucceeded
      rw [List.any_append]
      simp only [List.any_cons, List.any_nil, Bool.or_false]
      cases catalog[i]? with
      | none => simp
      | some phone =>
          cases hp : hasModelPath phone <;> cases hl : l.any (isLoadCompleted i) <;>
            cases he : isLoadCompleted i ev <;> simp

/-- C11: for every catalog and every session of load completions, load failures and
`switchModel` calls (the load of position `i` has succeeded when its success callback has
arrived, so at the time all loads have settled this is the assignment of success or
failure), the registry holds an entry at index `i` exactly when catalog entry `i` has a
model path and its load succeeded, and the `info` of that entry is catalog record `i`. A
failed load changes no state, so it neither removes nor prevents the registration of
another entry. -/
theorem registry_after_loads (catalog : List PhoneRecord) (events : List Event) (i : Nat) :
    ((∃ e : ModelEntry, getSlot (runEvents catalog events).phoneModels i = some e) ↔
      ((∃ phone : PhoneRecord, catalog[i]? = some phone ∧ hasModelPath phone = true) ∧
        loadSucceeded events i = true)) ∧
    (∀ e : ModelEntry, getSlot (runEvents catalog events).phoneModels i = some e →
      catalog[i]? = some e.info) ∧
    (∀ (s : PhoneViewer) (j : Nat), applyEvent catalog s (Event.loadFailed j) = s) := by
  have h := infoAt_runEvents catalog events i
  unfold infoAt loadedRecord at h
  refine ⟨⟨?_, ?_⟩, ?_, fun _ _ => rfl⟩
  · rintro ⟨e, he⟩
    rw [he] at h
    cases hc : catalog[i]? with
    | none => simp [hc] at h
    | some phone =>
        simp only [hc] at h
        by_cases hp : (hasModelPath phone && loadSucceeded events i) = true
        · rw [Bool.and_eq_true] at hp
          exact ⟨⟨phone, rfl, hp.1⟩, hp.2⟩
        · simp [hp] at h
  · rintro ⟨⟨phone, hc, hp⟩, hl⟩
    simp only [hc, hp, hl, Bool.and_self, if_true] at h
    cases hg : getSlot (runEvents catalog events).phoneModels i with
    | none => simp [hg] at h
    | some e => exact ⟨e, rfl⟩
  · intro e he
    rw [he] at h
    cases hc : catalog[i]? with
    | none => simp [hc] at h
    | some phone =>
        simp only [hc] at h
        by_cases hp : (hasModelPath phone && loadSucceeded events i) = true
        · simp only [hp, if_true, Option.map_some', Option.some.injEq] at h
          rw [h]
        · simp [hp] at h

/-- C11, at the witness of the claim: with `catalogAB`, the load of position 0 succeeded and
the load of position 1 failed, the registry holds entry 0 only and `switchModel(1)` changes
nothing. -/
theorem registry_after_loads_witness :
    (∃ e : ModelEntry, getSlot viewerSecondFailed.phoneModels (0 : Nat) = some e) ∧
    viewerSecondFailed.phoneModels.length = 1 ∧
    getSlot viewerSecondFailed.phoneModels 1 = none ∧
    viewerSecondFailed.switchModel 1 = viewerSecondFailed :=
  ⟨(registry_after_loads catalogAB
      [Event.loadCompleted 0 (sceneWithYaw 0), Event.loadFailed 1] 0).1.mpr
      ⟨⟨{ id := 1, name := "A", model_path := some "/a.glb" }, by decide, by decide⟩,
        by decide⟩,
   by decide, by decide, switchModel_out_of_range viewerSecondFailed 1 (by decide)⟩

/-! ## C12: `toggleAutoRotation` -/

/-- C12: for every viewer state, one `toggleAutoRotation` yields the negation of
`isAutoRotating` and two return it to its original value; `currentModelIndex` and the
registry are unchanged by it. -/
theorem toggleAutoRotation_twice (s : PhoneViewer) :
    s.toggleAutoRotation.isAutoRotating = (!s.isAutoRotating) ∧
    s.toggleAutoRotation.toggleAutoRotation.isAutoRotating = s.isAutoRotating ∧
    s.toggleAutoRotation.currentModelIndex = s.currentModelIndex ∧
    s.toggleAutoRotation.phoneModels = s.phoneModels ∧
    s.toggleAutoRotation.toggleAutoRotation = s := by
  refine ⟨rfl, ?_, rfl, rfl, ?_⟩
  · simp [PhoneViewer.toggleAutoRotation]
  · cases s
    simp [PhoneViewer.toggleAutoRotation]

/-- C12, at the sequence of the test: false, then true, then false. -/
theorem toggleAutoRotation_twice_witness :
    initialViewer.isAutoRotating = false ∧
    initialViewer.toggleAutoRotation.isAutoRotating = true ∧
    initialViewer.toggleAutoRotation.toggleAutoRotation.isAutoRotating = false :=
  ⟨rfl, (toggleAutoRotation_twice initialViewer).1,
    (toggleAutoRotation_twice initialViewer).2.1⟩

/-! ## C13: a right run stacked on a finished left run -/

theorem yawAt_animateRotation_self (s : PhoneViewer) (run : RotationRun) :
    yawAt (s.animateRotation run) run.model = (yawAt s run.model).map (stepYaw run) := by
  rw [yawAt_eq_yawOf, (animateRotation_fields s run).2.2.2, yawOf_mapYaw, if_pos rfl,
    ← yawAt_eq_yawOf]

theorem yawAt_frame_two_runs (s : PhoneViewer) (q : List FrameCallback)
    (runL runR : RotationRun)
    (hoff : s.isAutoRotating = false)
    (hq : s.frameCallbacks
      = q ++ [FrameCallback.animateRotation runL, FrameCallback.animateRotation runR])
    (hm : runL.model = runR.model)
    (hno : noRunOn runR.model q) :
    yawAt s.frame runR.model
      = (yawAt s runR.model).map (fun v => stepYaw runR (stepYaw runL v)) := by
  unfold PhoneViewer.frame
  rw [hq, List.foldl_append]
  simp only [List.foldl_cons, List.foldl_nil, PhoneViewer.runCallback]
  rw [yawAt_animateRotation_self, ← hm, yawAt_animateRotation_self, hm,
    yawAt_foldl_other q { s with frameCallbacks := [] } runR.model hoff hno]
  have hs : yawAt { s with frameCallbacks := [] } runR.model = yawAt s runR.model := rfl
  rw [hs]
  cases yawAt s runR.model <;> rfl

theorem yawAt_frames_two_runs (s : PhoneViewer) (q : List FrameCallback)
    (runL runR : RotationRun)
    (hoff : s.isAutoRotating = false)
    (hq : s.frameCallbacks
      = q ++ [FrameCallback.animateRotation runL, FrameCallback.animateRotation runR])
    (hm : runL.model = runR.model)
    (hno : noRunOn runR.model q) (v : ℚ)
    (hv : yawAt s runR.model = some v)
    (hfix : stepYaw runR (stepYaw runL v) = v) (n : Nat) :
    yawAt (s.frames n) runR.model = some v := by
  induction n with
  | zero => exact hv
  | succ n ih =>
      have hf := frames_fields s n
      simp only [PhoneViewer.frames]
      rw [yawAt_frame_two_runs (s.frames n) q runL runR (by rw [hf.2.1]; exact hoff)
        (by rw [hf.1]; exact hq) hm hno, ih]
      simp only [Option.map_some', hfix]

theorem stepYaw_right_from_top (m : Int) (t : ℚ) :
    stepYaw { model := m, direction := Direction.right, targetRotation := t - 3 / 10 } t
      = t - 1 / 100 := by
  unfold stepYaw
  have h1 : t > t - 3 / 10 := by linarith
  simp only [reduceCtorEq, false_and, if_false, h1, and_self, if_true]
  exact max_eq_left (by linarith)

theorem stepYaw_left_to_top (m : Int) (t : ℚ) :
    stepYaw { model := m, direction := Direction.left, targetRotation := t } (t - 1 / 100)
      = t := by
  unfold stepYaw
  have h1 : t - 1 / 100 < t := by linarith
  simp only [h1, and_self, if_true]
  rw [min_eq_right (by linarith)]

theorem yawAt_right_after_left (s : PhoneViewer) (y : ℚ)
    (hoff : s.isAutoRotating = false)
    (hy : yawAt s s.currentModelIndex = some y)
    (hno : noRunOn s.currentModelIndex s.frameCallbacks) (n : Nat) (hn : 29 ≤ n) :
    yawAt ((s.rotateModel Direction.left).state.frames n) s.currentModelIndex
      = some (y + 3 / 10) ∧
    (((s.rotateModel Direction.left).state.frames n).rotateModel Direction.right).error
      = none ∧
    ∀ k : Nat,
      yawAt ((((s.rotateModel Direction.left).state.frames n).rotateModel
          Direction.right).state.frames k) s.currentModelIndex
        = some (y + 3 / 10 - 1 / 100) ∧
      FrameCallback.animateRotation (runOf s Direction.left y)
        ∈ ((((s.rotateModel Direction.left).state.frames n).rotateModel
          Direction.right).state.frames k).frameCallbacks := by
  have hn2 : (29 : ℚ) ≤ n := by exact_mod_cast hn
  have hy1 : yawAt ((s.rotateModel Direction.left).state.frames n) s.currentModelIndex
      = some (y + 3 / 10) := by
    rw [yawAt_rotateModel_left s y hoff hy hno n, min_eq_right (by linarith)]
  have hf := frames_fields (s.rotateModel Direction.left).state n
  rw [(rotateModel_of_yaw s Direction.left y hy).2] at hf
  have ha := animateRotation_fields s (runOf s Direction.left y)
  rw [ha.1, ha.2.1, ha.2.2.1] at hf
  rw [(rotateModel_of_yaw s Direction.left y hy).2] at hy1 ⊢
  generalize (s.animateRotation (runOf s Direction.left y)).frames n = s1 at hf hy1 ⊢
  have hy1c : yawAt s1 s1.currentModelIndex = some (y + 3 / 10) := by
    rw [hf.2.2]
    exact hy1
  have hr := rotateModel_of_yaw s1 Direction.right (y + 3 / 10) hy1c
  have hrun : runOf s1 Direction.right (y + 3 / 10)
      = { model := s.currentModelIndex, direction := Direction.right,
          targetRotation := y + 3 / 10 - 3 / 10 } := by
    simp [runOf, hf.2.2]
  have hrunL : runOf s Direction.left y
      = { model := s.currentModelIndex, direction := Direction.left,
          targetRotation := y + 3 / 10 } := by
    simp [runOf]
  refine ⟨hy1, hr.1, ?_⟩
  intro k
  rw [hr.2, hrun]
  have hb := animateRotation_fields s1
    { model := s.currentModelIndex, direction := Direction.right,
      targetRotation := y + 3 / 10 - 3 / 10 }
  have hq : (s1.animateRotation
      { model := s.currentModelIndex, direction := Direction.right,
        targetRotation := y + 3 / 10 - 3 / 10 }).frameCallbacks
      = s.frameCallbacks ++ [FrameCallback.animateRotation (runOf s Direction.left y),
          FrameCallback.animateRotation
            { model := s.currentModelIndex, direction := Direction.right,
              targetRotation := y + 3 / 10 - 3 / 10 }] := by
    rw [hb.1, hf.1, List.append_assoc]
    rfl
  refine ⟨?_, ?_⟩
  · have hv : yawAt (s1.animateRotation
        { model := s.currentModelIndex, direction := Direction.right,
          targetRotation := y + 3 / 10 - 3 / 10 }) s.currentModelIndex
        = some (y + 3 / 10 - 1 / 100) := by
      have h := yawAt_animateRotation_self s1
        { model := s.currentModelIndex, direction := Direction.right,
          targetRotation := y + 3 / 10 - 3 / 10 }
      simp only [] at h
      rw [h, hy1, Option.map_some', stepYaw_right_from_top]
    exact yawAt_frames_two_runs _ s.frameCallbacks (runOf s Direction.left y)
      { model := s.currentModelIndex, direction := Direction.right,
        targetRotation := y + 3 / 10 - 3 / 10 }
      (by rw [hb.2.1, hf.2.1]; exact hoff) hq rfl hno (y + 3 / 10 - 1 / 100) hv
      (by rw [hrunL, stepYaw_left_to_top, stepYaw_right_from_top]) k
  · rw [(frames_fields _ k).1, hq]
    simp

/-- C13: for every yaw `y` of the current model (exact arithmetic), with auto-rotate off and
no other rotation run waiting on that model, when `rotateModel('left')` has been invoked
and its run has reached its target `t = y + 0.3` (any number `n ≥ 29` of frames later), a
`rotateModel('right')` on the same model returns without error and the yaw never reaches
the new target `t - 0.3`: at the end of every later frame the yaw `v` is `t - 0.01`, so
`v ≥ t - 0.01` and `v ≠ t - 0.3`, and the callback of the left run is still registered. -/
theorem opposite_runs_never_converge (s : PhoneViewer) (y : ℚ)
    (hoff : s.isAutoRotating = false)
    (hy : yawAt s s.currentModelIndex = some y)
    (hno : noRunOn s.currentModelIndex s.frameCallbacks) (n : Nat) (hn : 29 ≤ n) :
    yawAt ((s.rotateModel Direction.left).state.frames n) s.currentModelIndex
      = some (y + 3 / 10) ∧
    (((s.rotateModel Direction.left).state.frames n).rotateModel Direction.right).error
      = none ∧
    ∀ k : Nat, ∃ v : ℚ,
      yawAt ((((s.rotateModel Direction.left).state.frames n).rotateModel
          Direction.right).state.frames k) s.currentModelIndex = some v ∧
      v = y + 3 / 10 - 1 / 100 ∧
      y + 3 / 10 - 1 / 100 ≤ v ∧
      v ≠ y + 3 / 10 - 3 / 10 ∧
      FrameCallback.animateRotation
          { model := s.currentModelIndex, direction := Direction.left,
            targetRotation := y + 3 / 10 }
        ∈ ((((s.rotateModel Direction.left).state.frames n).rotateModel
          Direction.right).state.frames k).frameCallbacks := by
  have h := yawAt_right_after_left s y hoff hy hno n hn
  refine ⟨h.1, h.2.1, ?_⟩
  intro k
  have hk := h.2.2 k
  have hrunL : runOf s Direction.left y
      = { model := s.currentModelIndex, direction := Direction.left,
          targetRotation := y + 3 / 10 } := by
    simp [runOf]
  rw [hrunL] at hk
  refine ⟨y + 3 / 10 - 1 / 100, hk.1, rfl, le_refl _, ?_, hk.2⟩
  intro hne
  linarith

/-- C13, at `viewerFirstLoaded` (yaw 0): `rotateModel('left')`, 29 frames, then
`rotateModel('right')`; after 50 more frames the yaw is 0.29, not the target 0. -/
theorem opposite_runs_never_converge_witness :
    yawAt ((((viewerFirstLoaded.rotateModel Direction.left).state.frames 29).rotateModel
      Direction.right).state.frames 50) 0 = some (29 / 100) := by
  have h := (opposite_runs_never_converge viewerFirstLoaded 0 (by decide) (by decide)
    noRunOn_viewerFirstLoaded 29 (le_refl 29)).2.2 50
  have hc : viewerFirstLoaded.currentModelIndex = 0 := by decide
  rw [hc] at h
  obtain ⟨v, hv, hv2, _⟩ := h
  rw [hv, hv2]
  norm_num

end PhoneShow
